import Mathlib

/-
Verification of the stock-dashboard pipeline in `src/app.py` (the callback
`update_dashboard`, lines 121-247), as a shallow embedding.

Modelling conventions:
* A pandas DataFrame is a `Frame`: a date index, a column axis (flat labels or
  a MultiIndex of (field, ticker) pairs), and rows of cells.
* A numeric cell is `Price := Option ℚ`; `none` models a pandas NaN (missing
  value).  Prices are exact rationals; `Series.round(2)` is modelled by
  round-half-to-even at two decimals, numpy's rounding rule.
* Exceptions are modelled with `Except String`: `yf.download` is a function
  argument `download` returning `Except String Frame` (`.error` = a raised
  provider error), and the callback itself returns `Except String Outputs`,
  where `.error` means an exception escaped the callback (no outputs
  returned) and `.ok` is the 7-tuple of Dash outputs.
* `reset_index()` followed by `strftime("%Y-%m-%d")` (lines 157-158) is
  modelled by rendering the abstract day numbers of the index with
  `strftimeYMD`; the exact calendar string format is presentation detail.
* Card/metric string formatting (`f"${x:,.2f}"`) is modelled by `fmtMoney`,
  an injective rendering of the rounded value.
-/

deriving instance DecidableEq for Except

namespace StockDash

/-- A numeric cell of a provider frame; `none` models a pandas NaN. -/
abbrev Price := Option ℚ

/-- The column axis of a frame: flat labels, or a pandas MultiIndex whose
entries are (field, ticker) pairs as yfinance returns for batch downloads. -/
inductive Cols where
  | flat : List String → Cols
  | multi : List (String × String) → Cols
deriving DecidableEq

/-- `columns.get_level_values(0)`: the top-level label of every column. -/
def Cols.level0 : Cols → List String
  | .flat ns => ns
  | .multi ns => ns.map Prod.fst

/-- A pandas DataFrame as the pipeline sees it: date index (abstract day
numbers), column axis, and one list of cells per row, aligned with the
column axis. -/
structure Frame where
  index : List ℤ
  cols : Cols
  data : List (List Price)
deriving DecidableEq

/-- Lines 140-143: `df.columns = df.columns.get_level_values(0)` when the
column axis is a MultiIndex; a frame with flat columns is left unchanged. -/
def Frame.flattenColumns (f : Frame) : Frame :=
  match f.cols with
  | .multi ns => { f with cols := .flat (ns.map Prod.fst) }
  | .flat _ => f

/-- `df.empty` (yfinance empty results have zero rows). -/
def Frame.isEmpty (f : Frame) : Bool := f.data.isEmpty

/-- `df[name]` on a frame with flat columns: the cells of the first column
labelled `name`, one per row.  `none` models a KeyError (the label is
absent, or the axis is still a MultiIndex so no flat series exists). -/
def Frame.col (f : Frame) (name : String) : Option (List Price) :=
  match f.cols with
  | .flat ns =>
    if name ∈ ns then
      some (f.data.map (fun r => r.getD (ns.indexOf name) none))
    else none
  | .multi _ => none

/-- The cell of row `i` in the column labelled `n` (the value the table
record at `i` carries for field `n` before rounding). -/
def Frame.cellAt (f : Frame) (i : ℕ) (n : String) : Price :=
  ((f.col n).getD []).getD i none

/-- Column access in the derivation phase; a missing column is an uncaught
`KeyError` exception. -/
def getColE (f : Frame) (name : String) : Except String (List Price) :=
  match f.col name with
  | some cs => Except.ok cs
  | none => Except.error ("KeyError: " ++ name)

/-- `series.dropna()`: the present values, in order. -/
def dropNone (xs : List Price) : List ℚ := xs.filterMap id

/-- `series.max()` over present values (numpy skips NaN); implemented as a
fold so that the result is `none` exactly when no value is present, which
models the NaN result of an all-NaN column. -/
def listMax : List ℚ → Option ℚ
  | [] => none
  | x :: xs =>
    match listMax xs with
    | none => some x
    | some m => some (max x m)

/-- `series.min()` over present values (numpy skips NaN). -/
def listMin : List ℚ → Option ℚ
  | [] => none
  | x :: xs =>
    match listMin xs with
    | none => some x
    | some m => some (min x m)

/-- `series.max()` on a nullable column. -/
def seriesMax (xs : List Price) : Price := listMax (dropNone xs)

/-- `series.min()` on a nullable column. -/
def seriesMin (xs : List Price) : Price := listMin (dropNone xs)

/-- Round the fraction n/d (with d > 0) to the nearest integer, ties to
even — numpy's rounding rule — computed on the integer numerator and
denominator so that it evaluates by kernel reduction. -/
def roundHalfEvenInt (n : ℤ) (d : ℕ) : ℤ :=
  let f := n.fdiv d
  let r := n.fmod d
  if 2 * r < (d : ℤ) then f
  else if (d : ℤ) < 2 * r then f + 1
  else if 2 ∣ f then f else f + 1

/-- `Series.round(2)` on a present value: round half-to-even at 2 decimal
places (the value times 100 rounded to the nearest integer, ties to even,
divided by 100). -/
def round2 (q : ℚ) : ℚ := mkRat (roundHalfEvenInt (q.num * 100) q.den) 100

/-- `Series.round(2)` cell-wise; a NaN cell stays NaN. -/
def roundCell (p : Price) : Price := p.map round2

/-- Line 158: `pd.to_datetime(df["Date"]).dt.strftime("%Y-%m-%d")`; modelled
as an injective rendering of the abstract day number. -/
def strftimeYMD (d : ℤ) : String := toString d

/-- `f"${x:,.2f}"`: the dollar rendering of a metric value, modelled as an
injective rendering of the value rounded to 2 decimals. -/
def fmtMoney (q : ℚ) : String := "$" ++ toString (round2 q)

/-- Dollar rendering of a possibly-NaN metric (`float("nan")` prints `nan`). -/
def fmtPriceMoney : Price → String
  | some q => fmtMoney q
  | none => "$nan"

/-- A plotly trace, restricted to the three kinds the callback builds. -/
inductive Trace where
  | candlestick (xs : List String) (os hs ls cs : List Price)
  | scatterLine (xs : List String) (ys : List Price)
  | bar (xs : List String) (ys : List Price)
deriving DecidableEq

/-- A plotly figure: its displayed title and its traces. -/
structure Fig where
  title : String
  traces : List Trace
deriving DecidableEq

/-- `dbc.CardBody([html.H5(h5), html.P(p)])`. -/
structure CardBody where
  h5 : String
  p : String
deriving DecidableEq

/-- A cell of a table record: the Date column holds strings, the numeric
columns hold (possibly missing) rationals. -/
inductive TCell where
  | s : String → TCell
  | q : Price → TCell
deriving DecidableEq

/-- One record of `df_table.to_dict("records")`: column name to cell, in
column order. -/
abbrev TableRow := List (String × TCell)

/-- One entry of the DataTable column schema: `{"name": i, "id": i}`. -/
structure TableCol where
  name : String
  id : String
deriving DecidableEq

/-- The 7-tuple the callback returns: two figures, three metric cards,
table data, table columns. -/
structure Outputs where
  candlestickFig : Fig
  priceFig : Fig
  latestCloseCard : CardBody
  highCard : CardBody
  lowCard : CardBody
  tableData : List TableRow
  tableCols : List TableCol
deriving DecidableEq

/-- Lines 124-129: the figure returned when no ticker is selected. -/
def emptyFig : Fig := { title := "No Ticker Selected", traces := [] }

/-- Line 130: `dbc.CardBody([html.H5("N/A"), html.P("Enter a ticker")])`. -/
def emptyCard : CardBody := { h5 := "N/A", p := "Enter a ticker" }

/-- Line 131: the EMPTY-status bundle. -/
def emptyOutputs : Outputs :=
  { candlestickFig := emptyFig, priceFig := emptyFig,
    latestCloseCard := emptyCard, highCard := emptyCard, lowCard := emptyCard,
    tableData := [], tableCols := [] }

/-- Lines 149-151: the error figure, titled `f"Error: {e}"`. -/
def errorFig (msg : String) : Fig :=
  { title := "Error: " ++ msg, traces := [] }

/-- Line 152: `dbc.CardBody([html.H5("Error"), html.P(str(e))])`. -/
def errorCard (msg : String) : CardBody := { h5 := "Error", p := msg }

/-- Line 153: the ERROR-status bundle. -/
def errorOutputs (msg : String) : Outputs :=
  { candlestickFig := errorFig msg, priceFig := errorFig msg,
    latestCloseCard := errorCard msg, highCard := errorCard msg,
    lowCard := errorCard msg, tableData := [], tableCols := [] }

/-- The body of the `try` block, lines 133-146: the two downloads, the
MultiIndex flattening, and the empty check.  `.error` is the caught
exception's message. -/
def fetchPhase (ticker : String) (startD endD today : ℤ)
    (download : String → ℤ → ℤ → Except String Frame) :
    Except String (Frame × Frame) :=
  match download ticker startD endD with
  | .error e => .error e
  | .ok dfc0 =>
    match download ticker (today - 365) today with
    | .error e => .error e
    | .ok dfm0 =>
      let dfc := dfc0.flattenColumns
      let dfm := dfm0.flattenColumns
      if dfc.isEmpty || dfm.isEmpty then
        .error ("No data found for ticker '" ++ ticker ++ "'")
      else
        .ok (dfc, dfm)

/-- Line 206: `df_metrics["Close"].dropna().iloc[-1]`; `none` means the
dropna left nothing and `.iloc[-1]` raises an IndexError. -/
def latestCloseOf (mcs : List Price) : Option ℚ := (dropNone mcs).getLast?

/-- Line 207: `df_metrics["High"].max()`. -/
def week52HighOf (mhs : List Price) : Price := seriesMax mhs

/-- Line 208: `df_metrics["Low"].min()`. -/
def week52LowOf (mls : List Price) : Price := seriesMin mls

/-- The four price columns rounded for the table, line 231. -/
def ohlcCols : List String := ["Open", "High", "Low", "Close"]

/-- Lines 231-233: round the Open/High/Low/Close cells of a row to two
decimals, leaving the cells of all other columns untouched. -/
def roundRow (ns : List String) (row : List Price) : List Price :=
  List.zipWith (fun n v => if n ∈ ohlcCols then roundCell v else v) ns row

/-- Lines 235: `df_table.to_dict("records")` — one record per row; the Date
column (inserted by `reset_index`) comes first, then the provider columns
in order, the four price columns rounded. -/
def tableRecords (dates : List String) (ns : List String)
    (rows : List (List Price)) : List TableRow :=
  List.zipWith
    (fun d row =>
      ("Date", TCell.s d) ::
        List.zipWith (fun n v => (n, TCell.q v)) ns (roundRow ns row))
    dates rows

/-- Lines 155-247: everything after the `try` block — figures, metrics,
table.  This code runs outside any exception handler, so an `.error` here
is an exception escaping the callback. -/
def derivePhase (ticker : String) (dfc dfm : Frame) : Except String Outputs :=
  let dates := dfc.index.map strftimeYMD
  match getColE dfc "Open" with
  | .error e => .error e
  | .ok opens =>
  match getColE dfc "High" with
  | .error e => .error e
  | .ok highs =>
  match getColE dfc "Low" with
  | .error e => .error e
  | .ok lows =>
  match getColE dfc "Close" with
  | .error e => .error e
  | .ok closes =>
  match getColE dfc "Volume" with
  | .error e => .error e
  | .ok volumes =>
  match getColE dfm "Close" with
  | .error e => .error e
  | .ok mcs =>
  match latestCloseOf mcs with
  | none => .error "IndexError: single positional indexer is out-of-bounds"
  | some latestClose =>
  match getColE dfm "High" with
  | .error e => .error e
  | .ok mhs =>
  match getColE dfm "Low" with
  | .error e => .error e
  | .ok mls =>
  let ns := dfc.cols.level0
  Except.ok
    { candlestickFig :=
        { title := ticker.toUpper ++ " Candlestick Chart",
          traces := [Trace.candlestick dates opens highs lows closes] },
      priceFig :=
        { title := ticker.toUpper ++ " Close Price & Volume",
          traces := [Trace.scatterLine dates closes, Trace.bar dates volumes] },
      latestCloseCard := { h5 := "Latest Close", p := fmtMoney latestClose },
      highCard :=
        { h5 := "52-Week High", p := fmtPriceMoney (week52HighOf mhs) },
      lowCard :=
        { h5 := "52-Week Low", p := fmtPriceMoney (week52LowOf mls) },
      tableData := tableRecords dates ns dfc.data,
      tableCols := ("Date" :: ns).map (fun n => { name := n, id := n }) }

/-- The callback `update_dashboard`, lines 121-247.  `.ok` is the returned
output bundle; `.error` is an exception escaping the callback (the request
produces no bundle).  Note the `try` only spans the fetch phase: the
derivation phase runs unprotected. -/
def update_dashboard (ticker : String) (startD endD today : ℤ)
    (download : String → ℤ → ℤ → Except String Frame) :
    Except String Outputs :=
  if ticker = "" then .ok emptyOutputs
  else
    match fetchPhase ticker startD endD today download with
    | .error e => .ok (errorOutputs e)
    | .ok (dfc, dfm) => derivePhase ticker dfc dfm

/-- Spec-side reading of the latest-close rule: the close of the
chronologically last bar whose close is non-missing (scan from the end for
the first present value). -/
def lastNonMissing (xs : List Price) : Option ℚ := xs.reverse.findSome? id

/-- Drop-then-take-last (the code) agrees with scan-from-the-end-for-the
first-present-value (the spec's wording of the latest-close rule). -/
theorem latestCloseOf_eq_lastNonMissing (xs : List Price) :
    latestCloseOf xs = lastNonMissing xs := by
  unfold latestCloseOf lastNonMissing dropNone
  induction xs using List.reverseRecOn with
  | nil => rfl
  | append_singleton ys y ih =>
    rw [List.filterMap_append, List.reverse_concat, List.findSome?_cons]
    cases y with
    | none => simp [ih]
    | some a => simp

/-- Dropping NaNs from a column with every value present is the identity. -/
theorem dropNone_map_some (xs : List ℚ) : dropNone (xs.map some) = xs := by
  simp [dropNone, List.filterMap_map, Function.comp]

theorem listMax_ne_none (xs : List ℚ) (h : xs ≠ []) : ∃ m, listMax xs = some m := by
  cases xs with
  | nil => exact absurd rfl h
  | cons x xs =>
    cases hm : listMax xs with
    | none => exact ⟨x, by simp [listMax, hm]⟩
    | some m => exact ⟨max x m, by simp [listMax, hm]⟩

theorem listMax_mem (xs : List ℚ) (m : ℚ) (h : listMax xs = some m) : m ∈ xs := by
  induction xs generalizing m with
  | nil => simp [listMax] at h
  | cons x xs ih =>
    cases hm : listMax xs with
    | none =>
      rw [listMax, hm] at h
      injection h with h
      exact h ▸ List.mem_cons_self x xs
    | some m' =>
      rw [listMax, hm] at h
      injection h with h
      rcases max_choice x m' with hc | hc
      · rw [← h, hc]; exact List.mem_cons_self x xs
      · rw [← h, hc]; exact List.mem_cons_of_mem x (ih m' hm)

theorem le_listMax (xs : List ℚ) (m : ℚ) (h : listMax xs = some m) :
    ∀ x ∈ xs, x ≤ m := by
  induction xs generalizing m with
  | nil => simp
  | cons x xs ih =>
    intro y hy
    cases hm : listMax xs with
    | none =>
      rw [listMax, hm] at h
      injection h with h
      cases xs with
      | nil =>
        rcases List.mem_singleton.mp hy with rfl
        exact le_of_eq h
      | cons z zs => exact absurd hm (by rcases listMax_ne_none (z :: zs) (by simp) with ⟨w, hw⟩; simp [hw])
    | some m' =>
      rw [listMax, hm] at h
      injection h with h
      rcases List.mem_cons.mp hy with rfl | hmem
      · exact h ▸ le_max_left y m'
      · exact le_trans (ih m' hm y hmem) (h ▸ le_max_right x m')

theorem listMin_ne_none (xs : List ℚ) (h : xs ≠ []) : ∃ m, listMin xs = some m := by
  cases xs with
  | nil => exact absurd rfl h
  | cons x xs =>
    cases hm : listMin xs with
    | none => exact ⟨x, by simp [listMin, hm]⟩
    | some m => exact ⟨min x m, by simp [listMin, hm]⟩

theorem listMin_mem (xs : List ℚ) (m : ℚ) (h : listMin xs = some m) : m ∈ xs := by
  induction xs generalizing m with
  | nil => simp [listMin] at h
  | cons x xs ih =>
    cases hm : listMin xs with
    | none =>
      rw [listMin, hm] at h
      injection h with h
      exact h ▸ List.mem_cons_self x xs
    | some m' =>
      rw [listMin, hm] at h
      injection h with h
      rcases min_choice x m' with hc | hc
      · rw [← h, hc]; exact List.mem_cons_self x xs
      · rw [← h, hc]; exact List.mem_cons_of_mem x (ih m' hm)

theorem listMin_le (xs : List ℚ) (m : ℚ) (h : listMin xs = some m) :
    ∀ x ∈ xs, m ≤ x := by
  induction xs generalizing m with
  | nil => simp
  | cons x xs ih =>
    intro y hy
    cases hm : listMin xs with
    | none =>
      rw [listMin, hm] at h
      injection h with h
      cases xs with
      | nil =>
        rcases List.mem_singleton.mp hy with rfl
        exact le_of_eq h.symm
      | cons z zs => exact absurd hm (by rcases listMin_ne_none (z :: zs) (by simp) with ⟨w, hw⟩; simp [hw])
    | some m' =>
      rw [listMin, hm] at h
      injection h with h
      rcases List.mem_cons.mp hy with rfl | hmem
      · exact h ▸ min_le_left y m'
      · exact le_trans (h ▸ min_le_right x m') (ih m' hm y hmem)

/-- Flattening the column axis does not touch the rows, so it preserves
`df.empty`. -/
theorem flattenColumns_isEmpty (f : Frame) :
    f.flattenColumns.isEmpty = f.isEmpty := by
  unfold Frame.flattenColumns
  cases f with
  | mk idx cols data => cases cols <;> rfl

/-- Flattening the column axis is idempotent. -/
theorem flattenColumns_idem (f : Frame) :
    f.flattenColumns.flattenColumns = f.flattenColumns := by
  unfold Frame.flattenColumns
  cases f with
  | mk idx cols data => cases cols <;> rfl

/-- Explicit success form of the derivation phase: when every column access
succeeds and the latest close exists, the derivation returns the fully
populated bundle. -/
theorem derivePhase_ok_eq (ticker : String) (dfc dfm : Frame)
    (opens highs lows closes volumes mcs mhs mls : List Price) (lc : ℚ)
    (hco : getColE dfc "Open" = .ok opens)
    (hch : getColE dfc "High" = .ok highs)
    (hcl : getColE dfc "Low" = .ok lows)
    (hcc : getColE dfc "Close" = .ok closes)
    (hcv : getColE dfc "Volume" = .ok volumes)
    (hmc : getColE dfm "Close" = .ok mcs)
    (hlc : latestCloseOf mcs = some lc)
    (hmh : getColE dfm "High" = .ok mhs)
    (hml : getColE dfm "Low" = .ok mls) :
    derivePhase ticker dfc dfm = .ok
      { candlestickFig :=
          { title := ticker.toUpper ++ " Candlestick Chart",
            traces := [Trace.candlestick (dfc.index.map strftimeYMD)
              opens highs lows closes] },
        priceFig :=
          { title := ticker.toUpper ++ " Close Price & Volume",
            traces := [Trace.scatterLine (dfc.index.map strftimeYMD) closes,
              Trace.bar (dfc.index.map strftimeYMD) volumes] },
        latestCloseCard := { h5 := "Latest Close", p := fmtMoney lc },
        highCard :=
          { h5 := "52-Week High", p := fmtPriceMoney (week52HighOf mhs) },
        lowCard :=
          { h5 := "52-Week Low", p := fmtPriceMoney (week52LowOf mls) },
        tableData := tableRecords (dfc.index.map strftimeYMD)
          dfc.cols.level0 dfc.data,
        tableCols := ("Date" :: dfc.cols.level0).map
          (fun n => { name := n, id := n }) } := by
  simp only [derivePhase, hco, hch, hcl, hcc, hcv, hmc, hlc, hmh, hml]

/-- A non-empty ticker routes the callback through the fetch phase; a fetch
success continues into the derivation phase. -/
theorem update_eq_derive (ticker : String) (startD endD today : ℤ)
    (download : String → ℤ → ℤ → Except String Frame) (dfc dfm : Frame)
    (htick : ticker ≠ "")
    (hfetch : fetchPhase ticker startD endD today download = .ok (dfc, dfm)) :
    update_dashboard ticker startD endD today download =
      derivePhase ticker dfc dfm := by
  simp only [update_dashboard, if_neg htick, hfetch]

/-- A fetch-phase success determines the metrics frame: it is the flattened
result of the metrics download, independent of the requested range. -/
theorem fetchPhase_ok_metrics (ticker : String) (startD endD today : ℤ)
    (download : String → ℤ → ℤ → Except String Frame) (dfc dfm : Frame)
    (h : fetchPhase ticker startD endD today download = .ok (dfc, dfm)) :
    ∃ fm0, download ticker (today - 365) today = .ok fm0 ∧
      dfm = fm0.flattenColumns := by
  cases h1 : download ticker startD endD with
  | error e1 => simp [fetchPhase, h1] at h
  | ok fc0 =>
    cases h2 : download ticker (today - 365) today with
    | error e2 => simp [fetchPhase, h1, h2] at h
    | ok fm0 =>
      simp only [fetchPhase, h1, h2] at h
      split at h
      · simp at h
      · injection h with h
        exact ⟨fm0, rfl, congrArg Prod.snd h.symm⟩

/-- A derivation success determines the three metric cards from the metrics
frame alone. -/
theorem derivePhase_ok_inv (ticker : String) (dfc dfm : Frame) (out : Outputs)
    (h : derivePhase ticker dfc dfm = .ok out) :
    ∃ mcs lc mhs mls,
      getColE dfm "Close" = .ok mcs ∧ latestCloseOf mcs = some lc ∧
      getColE dfm "High" = .ok mhs ∧ getColE dfm "Low" = .ok mls ∧
      out.latestCloseCard = { h5 := "Latest Close", p := fmtMoney lc } ∧
      out.highCard =
        { h5 := "52-Week High", p := fmtPriceMoney (week52HighOf mhs) } ∧
      out.lowCard =
        { h5 := "52-Week Low", p := fmtPriceMoney (week52LowOf mls) } := by
  cases h1 : getColE dfc "Open" with
  | error e => simp [derivePhase, h1] at h
  | ok opens =>
    cases h2 : getColE dfc "High" with
    | error e => simp [derivePhase, h1, h2] at h
    | ok highs =>
      cases h3 : getColE dfc "Low" with
      | error e => simp [derivePhase, h1, h2, h3] at h
      | ok lows =>
        cases h4 : getColE dfc "Close" with
        | error e => simp [derivePhase, h1, h2, h3, h4] at h
        | ok closes =>
          cases h5 : getColE dfc "Volume" with
          | error e => simp [derivePhase, h1, h2, h3, h4, h5] at h
          | ok volumes =>
            cases h6 : getColE dfm "Close" with
            | error e => simp [derivePhase, h1, h2, h3, h4, h5, h6] at h
            | ok mcs =>
              cases h7 : latestCloseOf mcs with
              | none => simp [derivePhase, h1, h2, h3, h4, h5, h6, h7] at h
              | some lc =>
                cases h8 : getColE dfm "High" with
                | error e =>
                  simp [derivePhase, h1, h2, h3, h4, h5, h6, h7, h8] at h
                | ok mhs =>
                  cases h9 : getColE dfm "Low" with
                  | error e =>
                    simp [derivePhase, h1, h2, h3, h4, h5, h6, h7, h8, h9] at h
                  | ok mls =>
                    simp only [derivePhase, h1, h2, h3, h4, h5, h6, h7, h8,
                      h9] at h
                    injection h with h
                    exact ⟨mcs, lc, mhs, mls, rfl, h7, rfl, rfl,
                      by rw [← h], by rw [← h], by rw [← h]⟩

/-- Claim C1: when both fetches succeed (with non-empty series, so the
fetch phase returns `.ok`), the three summary metrics come from the metrics
series alone: the latest close is the close of the chronologically last bar
whose close is non-missing (bars with missing closes are skipped, even at
the end), and the 52-week high/low cards render the maximum of the highs
and the minimum of the lows over all bars of the metrics series. -/
theorem C1_metrics_from_metricSeries
    (ticker : String) (startD endD today : ℤ)
    (download : String → ℤ → ℤ → Except String Frame) (dfc dfm : Frame)
    (opens highs lows closes volumes mcs : List Price)
    (mhsv mlsv : List ℚ) (lc : ℚ)
    (htick : ticker ≠ "")
    (hfetch : fetchPhase ticker startD endD today download = .ok (dfc, dfm))
    (hco : getColE dfc "Open" = .ok opens)
    (hch : getColE dfc "High" = .ok highs)
    (hcl : getColE dfc "Low" = .ok lows)
    (hcc : getColE dfc "Close" = .ok closes)
    (hcv : getColE dfc "Volume" = .ok volumes)
    (hmc : getColE dfm "Close" = .ok mcs)
    (hlast : lastNonMissing mcs = some lc)
    (hmh : getColE dfm "High" = .ok (mhsv.map some))
    (hml : getColE dfm "Low" = .ok (mlsv.map some))
    (hneH : mhsv ≠ []) (hneL : mlsv ≠ []) :
    ∃ out hi lo,
      update_dashboard ticker startD endD today download = .ok out ∧
      out.latestCloseCard = { h5 := "Latest Close", p := fmtMoney lc } ∧
      out.highCard = { h5 := "52-Week High", p := fmtPriceMoney (some hi) } ∧
      hi ∈ mhsv ∧ (∀ x ∈ mhsv, x ≤ hi) ∧
      out.lowCard = { h5 := "52-Week Low", p := fmtPriceMoney (some lo) } ∧
      lo ∈ mlsv ∧ (∀ x ∈ mlsv, lo ≤ x) := by
  have hlc : latestCloseOf mcs = some lc := by
    rw [latestCloseOf_eq_lastNonMissing]; exact hlast
  obtain ⟨hi, hhi⟩ := listMax_ne_none mhsv hneH
  obtain ⟨lo, hlo⟩ := listMin_ne_none mlsv hneL
  have hwh : week52HighOf (mhsv.map some) = some hi := by
    rw [week52HighOf, seriesMax, dropNone_map_some]; exact hhi
  have hwl : week52LowOf (mlsv.map some) = some lo := by
    rw [week52LowOf, seriesMin, dropNone_map_some]; exact hlo
  have hup := derivePhase_ok_eq ticker dfc dfm opens highs lows closes volumes
    mcs (mhsv.map some) (mlsv.map some) lc hco hch hcl hcc hcv hmc hlc hmh hml
  rw [← update_eq_derive ticker startD endD today download dfc dfm htick hfetch]
    at hup
  exact ⟨_, hi, lo, hup, rfl, by rw [hwh], listMax_mem mhsv hi hhi,
    le_listMax mhsv hi hhi, by rw [hwl], listMin_mem mlsv lo hlo,
    listMin_le mlsv lo hlo⟩

/-- The chart frame used by concrete evaluations: one bar with every field
present. -/
def cFrameW : Frame :=
  { index := [0],
    cols := .flat ["Open", "High", "Low", "Close", "Volume"],
    data := [[some 1, some 3, some 1, some 2, some 100]] }

/-- The metrics frame for the C1 evaluation: three bars, the last close
missing, so the latest close must come from the second bar. -/
def mFrameW : Frame :=
  { index := [10, 11, 12],
    cols := .flat ["Open", "High", "Low", "Close", "Volume"],
    data :=
      [[some 1, some 12, some 9, some 10, some 100],
       [some 1, some 13, some 8, some 11, some 100],
       [some 1, some 12, some 9, none, some 100]] }

/-- A provider returning `cFrameW` for the requested range and `mFrameW`
for the trailing-year window. -/
def dlW : String → ℤ → ℤ → Except String Frame :=
  fun _ a _ => if a = 0 then .ok cFrameW else .ok mFrameW

/-- Concrete evaluation of C1: latest close 11 (the missing third close is
skipped), 52-week high 13, 52-week low 8. -/
theorem C1_metrics_from_metricSeries_witness :
    ∃ out hi lo,
      update_dashboard "AAPL" 0 2 400 dlW = .ok out ∧
      out.latestCloseCard = { h5 := "Latest Close", p := fmtMoney 11 } ∧
      out.highCard = { h5 := "52-Week High", p := fmtPriceMoney (some hi) } ∧
      hi ∈ [(12 : ℚ), 13, 12] ∧ (∀ x ∈ [(12 : ℚ), 13, 12], x ≤ hi) ∧
      out.lowCard = { h5 := "52-Week Low", p := fmtPriceMoney (some lo) } ∧
      lo ∈ [(9 : ℚ), 8, 9] ∧ (∀ x ∈ [(9 : ℚ), 8, 9], lo ≤ x) :=
  C1_metrics_from_metricSeries "AAPL" 0 2 400 dlW cFrameW mFrameW
    [some 1] [some 3] [some 1] [some 2] [some 100]
    [some 10, some 11, none] [12, 13, 12] [9, 8, 9] 11
    (by decide) (by decide) (by decide) (by decide) (by decide) (by decide)
    (by decide) (by decide) (by decide) (by decide) (by decide)
    (by decide) (by decide)

/-- Inverting a successful column access on a flat frame. -/
theorem getColE_ok_flat (f : Frame) (ns : List String) (n : String)
    (cs : List Price) (hflat : f.cols = .flat ns)
    (h : getColE f n = .ok cs) :
    n ∈ ns ∧ cs = f.data.map (fun r => r.getD (ns.indexOf n) none) := by
  simp only [getColE, Frame.col, hflat] at h
  by_cases hm : n ∈ ns
  · rw [if_pos hm] at h
    injection h with h
    exact ⟨hm, h.symm⟩
  · rw [if_neg hm] at h
    simp at h

/-- The cell a row record carries for field `n` is the frame's cell at that
row and column. -/
theorem getColE_ok_cellAt (f : Frame) (ns : List String) (n : String)
    (cs : List Price) (i : ℕ) (hflat : f.cols = .flat ns)
    (h : getColE f n = .ok cs) (hi : i < f.data.length) :
    (f.data.getD i []).getD (ns.indexOf n) none = f.cellAt i n := by
  obtain ⟨hmem, -⟩ := getColE_ok_flat f ns n cs hflat h
  simp [Frame.cellAt, Frame.col, hflat, hmem, List.getD_eq_getElem?_getD,
    List.getElem?_map, List.getElem?_eq_getElem hi]

/-- Looking a field up in the zipped-and-rounded part of a table record:
the first column labelled `n` supplies the cell, rounded exactly when `n`
is one of the four price fields. -/
theorem lookup_zip_roundRow (ns : List String) (row : List Price)
    (n : String) (hmem : n ∈ ns) (hlen : row.length = ns.length) :
    List.lookup n
        (List.zipWith (fun m v => (m, TCell.q v)) ns (roundRow ns row)) =
      some (TCell.q (if n ∈ ohlcCols
        then roundCell (row.getD (ns.indexOf n) none)
        else row.getD (ns.indexOf n) none)) := by
  induction ns generalizing row with
  | nil => cases hmem
  | cons m ms ih =>
    cases row with
    | nil => simp at hlen
    | cons v vs =>
      rw [roundRow, List.zipWith_cons_cons, List.zipWith_cons_cons]
      by_cases hnm : n = m
      · subst hnm
        simp [List.lookup, List.indexOf_cons_self]
      · have hb : (n == m) = false := beq_eq_false_iff_ne.mpr hnm
        have hmem' : n ∈ ms := by
          rcases List.mem_cons.mp hmem with h | h
          · exact absurd h hnm
          · exact h
        have hlen' : vs.length = ms.length := by simpa using hlen
        rw [List.lookup, hb]
        rw [List.indexOf_cons_ne ms (Ne.symm hnm), List.getD_cons_succ]
        rw [← roundRow]
        exact ih vs hmem' hlen'

/-- Looking a non-Date field up in a full table record. -/
theorem lookup_tableRecord (f : Frame) (ns : List String) (n : String)
    (cs : List Price) (i : ℕ) (d : String)
    (hflat : f.cols = .flat ns) (hok : getColE f n = .ok cs)
    (hi : i < f.data.length) (hnd : (n == "Date") = false)
    (hrow : (f.data.getD i []).length = ns.length) :
    List.lookup n (("Date", TCell.s d) ::
        List.zipWith (fun m v => (m, TCell.q v)) ns
          (roundRow ns (f.data.getD i []))) =
      some (TCell.q (if n ∈ ohlcCols
        then roundCell (f.cellAt i n) else f.cellAt i n)) := by
  obtain ⟨hmem, -⟩ := getColE_ok_flat f ns n cs hflat hok
  rw [List.lookup, hnd, lookup_zip_roundRow ns (f.data.getD i []) n hmem hrow,
    getColE_ok_cellAt f ns n cs i hflat hok hi]

/-- The table has exactly one record per chart row. -/
theorem tableRecords_length (dates ns : List String)
    (rows : List (List Price)) (hlen : dates.length = rows.length) :
    (tableRecords dates ns rows).length = rows.length := by
  unfold tableRecords
  rw [List.length_zipWith, hlen, min_self]

/-- The table record at index `i`. -/
theorem tableRecords_getElem? (dates ns : List String)
    (rows : List (List Price)) (i : ℕ) (hi : i < rows.length)
    (hlen : dates.length = rows.length) :
    (tableRecords dates ns rows)[i]? =
      some (("Date", TCell.s (dates.getD i "")) ::
        List.zipWith (fun n v => (n, TCell.q v)) ns
          (roundRow ns (rows.getD i []))) := by
  have hid : i < dates.length := by rw [hlen]; exact hi
  unfold tableRecords
  rw [List.getElem?_zipWith, List.getElem?_eq_getElem hid,
    List.getElem?_eq_getElem hi]
  simp [List.getD_eq_getElem?_getD, List.getElem?_eq_getElem, hid, hi]

/-- Claim C2: when the fetches succeed and the derivation completes, the
table output has exactly one record per bar of the chart series; in each
record the Open, High, Low and Close fields equal the source cells rounded
to 2 decimal places, Volume and Date are left unrounded (Date is the
rendered date of the bar), and the column schema is the ordered list of
field names, each with display label equal to its field name. -/
theorem C2_table_projection
    (ticker : String) (startD endD today : ℤ)
    (download : String → ℤ → ℤ → Except String Frame) (dfc dfm : Frame)
    (ns : List String)
    (opens highs lows closes volumes mcs mhs mls : List Price) (lc : ℚ)
    (htick : ticker ≠ "")
    (hfetch : fetchPhase ticker startD endD today download = .ok (dfc, dfm))
    (hflat : dfc.cols = .flat ns)
    (hlenIdx : dfc.index.length = dfc.data.length)
    (hrows : ∀ r ∈ dfc.data, r.length = ns.length)
    (hco : getColE dfc "Open" = .ok opens)
    (hch : getColE dfc "High" = .ok highs)
    (hcl : getColE dfc "Low" = .ok lows)
    (hcc : getColE dfc "Close" = .ok closes)
    (hcv : getColE dfc "Volume" = .ok volumes)
    (hmc : getColE dfm "Close" = .ok mcs)
    (hlc : latestCloseOf mcs = some lc)
    (hmh : getColE dfm "High" = .ok mhs)
    (hml : getColE dfm "Low" = .ok mls) :
    ∃ out, update_dashboard ticker startD endD today download = .ok out ∧
      out.tableData.length = dfc.data.length ∧
      out.tableCols = ("Date" :: ns).map (fun n => { name := n, id := n }) ∧
      ∀ i, i < dfc.data.length →
        ∃ row, out.tableData[i]? = some row ∧
          List.lookup "Date" row =
            some (TCell.s (strftimeYMD (dfc.index.getD i 0))) ∧
          (∀ n ∈ ohlcCols,
            List.lookup n row = some (TCell.q (roundCell (dfc.cellAt i n)))) ∧
          List.lookup "Volume" row = some (TCell.q (dfc.cellAt i "Volume")) := by
  have hup := derivePhase_ok_eq ticker dfc dfm opens highs lows closes volumes
    mcs mhs mls lc hco hch hcl hcc hcv hmc hlc hmh hml
  rw [← update_eq_derive ticker startD endD today download dfc dfm htick
    hfetch] at hup
  have hlev : dfc.cols.level0 = ns := by rw [hflat]; rfl
  rw [hlev] at hup
  have hdlen : (dfc.index.map strftimeYMD).length = dfc.data.length := by
    rw [List.length_map]; exact hlenIdx
  refine ⟨_, hup, tableRecords_length _ _ _ hdlen, rfl, ?_⟩
  intro i hi
  have hii : i < dfc.index.length := by rw [hlenIdx]; exact hi
  have hrowlen : (dfc.data.getD i []).length = ns.length := by
    have hgd : dfc.data.getD i [] = dfc.data[i] := by
      rw [List.getD_eq_getElem?_getD, List.getElem?_eq_getElem hi]
      rfl
    rw [hgd]
    exact hrows _ (List.getElem_mem hi)
  have hdate : (dfc.index.map strftimeYMD).getD i "" =
      strftimeYMD (dfc.index.getD i 0) := by
    rw [List.getD_eq_getElem?_getD, List.getElem?_map,
      List.getD_eq_getElem?_getD, List.getElem?_eq_getElem hii]
    rfl
  refine ⟨_, tableRecords_getElem? (dfc.index.map strftimeYMD) ns dfc.data i
    hi hdlen, ?_, ?_, ?_⟩
  · rw [← hdate, List.lookup]
    simp
  · intro n hn
    have hnd : ∀ m : String, m ∈ ohlcCols → (m == "Date") = false := by decide
    rcases List.mem_cons.mp hn with rfl | hn'
    · simpa using lookup_tableRecord dfc ns "Open" opens i _ hflat hco hi
        (by decide) hrowlen
    rcases List.mem_cons.mp hn' with rfl | hn''
    · simpa using lookup_tableRecord dfc ns "High" highs i _ hflat hch hi
        (by decide) hrowlen
    rcases List.mem_cons.mp hn'' with rfl | hn'''
    · simpa using lookup_tableRecord dfc ns "Low" lows i _ hflat hcl hi
        (by decide) hrowlen
    rcases List.mem_cons.mp hn''' with rfl | hn''''
    · simpa using lookup_tableRecord dfc ns "Close" closes i _ hflat hcc hi
        (by decide) hrowlen
    · cases hn''''
  · simpa using lookup_tableRecord dfc ns "Volume" volumes i _ hflat hcv hi
      (by decide) hrowlen

/-- The chart frame for the C2 evaluation: one bar whose close is 123.456,
the spec's rounding example. -/
def cFrameC2 : Frame :=
  { index := [5],
    cols := .flat ["Open", "High", "Low", "Close", "Volume"],
    data := [[some 1, some 200, some 1, some (mkRat 123456 1000), some 1000]] }

/-- A provider returning `cFrameC2` for the requested range and `mFrameW`
for the trailing-year window. -/
def dlC2 : String → ℤ → ℤ → Except String Frame :=
  fun _ a _ => if a = 5 then .ok cFrameC2 else .ok mFrameW

/-- Concrete evaluation of C2, including the rounding example: the close
123.456 appears in the table as 123.46. -/
theorem C2_table_projection_witness :
    (∃ out, update_dashboard "AAPL" 5 6 400 dlC2 = .ok out ∧
      out.tableData.length = cFrameC2.data.length ∧
      out.tableCols = ("Date" :: ["Open", "High", "Low", "Close", "Volume"]).map
        (fun n => { name := n, id := n }) ∧
      ∀ i, i < cFrameC2.data.length →
        ∃ row, out.tableData[i]? = some row ∧
          List.lookup "Date" row =
            some (TCell.s (strftimeYMD (cFrameC2.index.getD i 0))) ∧
          (∀ n ∈ ohlcCols,
            List.lookup n row =
              some (TCell.q (roundCell (cFrameC2.cellAt i n)))) ∧
          List.lookup "Volume" row =
            some (TCell.q (cFrameC2.cellAt i "Volume"))) ∧
    roundCell (cFrameC2.cellAt 0 "Close") = some (mkRat 12346 100) :=
  ⟨C2_table_projection "AAPL" 5 6 400 dlC2 cFrameC2 mFrameW
    ["Open", "High", "Low", "Close", "Volume"]
    [some 1] [some 200] [some 1] [some (mkRat 123456 1000)] [some 1000]
    [some 10, some 11, none]
    [some 12, some 13, some 12] [some 9, some 8, some 9] 11
    (by decide) (by decide) (by decide) (by decide) (by decide) (by decide)
    (by decide) (by decide) (by decide) (by decide) (by decide) (by decide)
    (by decide) (by decide), by decide⟩

/-- Claim C3: when the provider returns zero rows for either series, the
callback returns the ERROR bundle whose message is
`No data found for ticker '<ticker>'`; the message is surfaced on both
chart titles (prefixed `Error: `) and as the body of all three metric
cards, and the table data and columns are empty. -/
theorem C3_no_data_error
    (ticker : String) (startD endD today : ℤ)
    (download : String → ℤ → ℤ → Except String Frame) (fc fm : Frame)
    (htick : ticker ≠ "")
    (hdc : download ticker startD endD = .ok fc)
    (hdm : download ticker (today - 365) today = .ok fm)
    (hempty : (fc.isEmpty || fm.isEmpty) = true) :
    ∃ out, update_dashboard ticker startD endD today download = .ok out ∧
      out.candlestickFig.title =
        "Error: " ++ ("No data found for ticker '" ++ ticker ++ "'") ∧
      out.priceFig.title =
        "Error: " ++ ("No data found for ticker '" ++ ticker ++ "'") ∧
      out.latestCloseCard =
        { h5 := "Error",
          p := "No data found for ticker '" ++ ticker ++ "'" } ∧
      out.highCard =
        { h5 := "Error",
          p := "No data found for ticker '" ++ ticker ++ "'" } ∧
      out.lowCard =
        { h5 := "Error",
          p := "No data found for ticker '" ++ ticker ++ "'" } ∧
      out.tableData = [] ∧ out.tableCols = [] := by
  have hfe : fetchPhase ticker startD endD today download =
      .error ("No data found for ticker '" ++ ticker ++ "'") := by
    simp [fetchPhase, hdc, hdm, flattenColumns_isEmpty, hempty]
  simp only [update_dashboard, if_neg htick, hfe]
  exact ⟨_, rfl, rfl, rfl, rfl, rfl, rfl, rfl, rfl⟩

/-- A provider response with zero rows. -/
def emptyFrame : Frame := { index := [], cols := .flat [], data := [] }

/-- A provider that returns zero rows for every request. -/
def dlEmpty : String → ℤ → ℤ → Except String Frame :=
  fun _ _ _ => .ok emptyFrame

/-- Concrete evaluation of C3: the unknown-ticker scenario of the spec. -/
theorem C3_no_data_error_witness :
    ∃ out, update_dashboard "ZZZZINVALID" 0 10 400 dlEmpty = .ok out ∧
      out.candlestickFig.title =
        "Error: " ++ ("No data found for ticker '" ++ "ZZZZINVALID" ++ "'") ∧
      out.priceFig.title =
        "Error: " ++ ("No data found for ticker '" ++ "ZZZZINVALID" ++ "'") ∧
      out.latestCloseCard =
        { h5 := "Error",
          p := "No data found for ticker '" ++ "ZZZZINVALID" ++ "'" } ∧
      out.highCard =
        { h5 := "Error",
          p := "No data found for ticker '" ++ "ZZZZINVALID" ++ "'" } ∧
      out.lowCard =
        { h5 := "Error",
          p := "No data found for ticker '" ++ "ZZZZINVALID" ++ "'" } ∧
      out.tableData = [] ∧ out.tableCols = [] :=
  C3_no_data_error "ZZZZINVALID" 0 10 400 dlEmpty emptyFrame emptyFrame
    (by decide) (by decide) (by decide) (by decide)

/-- Claim C4: the empty ticker short-circuits to the EMPTY bundle — both
chart figures are titled "No Ticker Selected", all three metric cards read
"N/A", and the table data and columns are empty lists.  The bundle is the
same for every `download` function, so no network call can influence the
result (the code returns before `yf.download` is reached). -/
theorem C4_empty_ticker (startD endD today : ℤ)
    (download : String → ℤ → ℤ → Except String Frame) :
    update_dashboard "" startD endD today download = .ok emptyOutputs ∧
    emptyOutputs.candlestickFig.title = "No Ticker Selected" ∧
    emptyOutputs.priceFig.title = "No Ticker Selected" ∧
    emptyOutputs.latestCloseCard.h5 = "N/A" ∧
    emptyOutputs.highCard.h5 = "N/A" ∧
    emptyOutputs.lowCard.h5 = "N/A" ∧
    emptyOutputs.tableData = [] ∧
    emptyOutputs.tableCols = [] := by
  refine ⟨?_, rfl, rfl, rfl, rfl, rfl, rfl, rfl⟩
  simp [update_dashboard]

/-- Claim C5: flattening a MultiIndex column axis keeps only the top-level
field name, discarding the ticker qualifier, and the pipeline output on a
provider returning MultiIndex responses is identical to the output on a
provider returning the already-flattened responses with the same values. -/
theorem C5_multiindex_equiv
    (ticker : String) (startD endD today : ℤ)
    (dl dl' : String → ℤ → ℤ → Except String Frame)
    (hrel : ∀ sym a b, dl' sym a b = (dl sym a b).map Frame.flattenColumns) :
    (∀ (idx : List ℤ) (ns : List (String × String))
        (data : List (List Price)),
      (Frame.mk idx (.multi ns) data).flattenColumns =
        Frame.mk idx (.flat (ns.map Prod.fst)) data) ∧
    update_dashboard ticker startD endD today dl =
      update_dashboard ticker startD endD today dl' := by
  refine ⟨fun idx ns data => rfl, ?_⟩
  have hfp : fetchPhase ticker startD endD today dl =
      fetchPhase ticker startD endD today dl' := by
    unfold fetchPhase
    rw [hrel, hrel]
    cases dl ticker startD endD with
    | error e => rfl
    | ok fc0 =>
      cases dl ticker (today - 365) today with
      | error e => rfl
      | ok fm0 => simp [Except.map, flattenColumns_idem]
  unfold update_dashboard
  rw [hfp]

/-- The C1 metrics frame with its columns qualified by ticker, as a batch
response nests them. -/
def mFrameMulti : Frame :=
  { index := [10, 11, 12],
    cols := .multi [("Open", "AAPL"), ("High", "AAPL"), ("Low", "AAPL"),
      ("Close", "AAPL"), ("Volume", "AAPL")],
    data :=
      [[some 1, some 12, some 9, some 10, some 100],
       [some 1, some 13, some 8, some 11, some 100],
       [some 1, some 12, some 9, none, some 100]] }

/-- The C1 chart frame with its columns qualified by ticker. -/
def cFrameMulti : Frame :=
  { index := [0],
    cols := .multi [("Open", "AAPL"), ("High", "AAPL"), ("Low", "AAPL"),
      ("Close", "AAPL"), ("Volume", "AAPL")],
    data := [[some 1, some 3, some 1, some 2, some 100]] }

/-- A provider answering with MultiIndex frames holding the same values as
`dlW`'s flat frames. -/
def dlMulti : String → ℤ → ℤ → Except String Frame :=
  fun _ a _ => if a = 0 then .ok cFrameMulti else .ok mFrameMulti

/-- Concrete evaluation of C5 on the MultiIndex provider `dlMulti` and its
flat counterpart `dlW`. -/
theorem C5_multiindex_equiv_witness :
    (∀ (idx : List ℤ) (ns : List (String × String))
        (data : List (List Price)),
      (Frame.mk idx (.multi ns) data).flattenColumns =
        Frame.mk idx (.flat (ns.map Prod.fst)) data) ∧
    update_dashboard "AAPL" 0 2 400 dlMulti =
      update_dashboard "AAPL" 0 2 400 dlW :=
  (C5_multiindex_equiv "AAPL" 0 2 400 dlMulti dlW
    (fun sym a b => by
      unfold dlW dlMulti
      by_cases h : a = 0 <;> simp [h, Except.map] <;> decide)).imp
    id Eq.symm

/-- Claim C6: the metrics window is the trailing 365 days from "today",
independent of the chosen range — two successful runs with the same
ticker, the same provider and the same "today" but different ranges yield
identical metric cards. -/
theorem C6_metrics_range_independent
    (ticker : String) (s1 e1 s2 e2 today : ℤ)
    (dl : String → ℤ → ℤ → Except String Frame)
    (c1 m1 c2 m2 : Frame) (out1 out2 : Outputs)
    (hf1 : fetchPhase ticker s1 e1 today dl = .ok (c1, m1))
    (hf2 : fetchPhase ticker s2 e2 today dl = .ok (c2, m2))
    (hd1 : derivePhase ticker c1 m1 = .ok out1)
    (hd2 : derivePhase ticker c2 m2 = .ok out2) :
    out1.latestCloseCard = out2.latestCloseCard ∧
    out1.highCard = out2.highCard ∧
    out1.lowCard = out2.lowCard := by
  obtain ⟨fm1, hdl1, hm1⟩ :=
    fetchPhase_ok_metrics ticker s1 e1 today dl c1 m1 hf1
  obtain ⟨fm2, hdl2, hm2⟩ :=
    fetchPhase_ok_metrics ticker s2 e2 today dl c2 m2 hf2
  have hfm : fm1 = fm2 := by
    rw [hdl1] at hdl2
    injection hdl2
  have hm : m1 = m2 := by rw [hm1, hm2, hfm]
  obtain ⟨mcs1, lc1, mhs1, mls1, hA1, hB1, hC1, hD1, hE1, hF1, hG1⟩ :=
    derivePhase_ok_inv ticker c1 m1 out1 hd1
  obtain ⟨mcs2, lc2, mhs2, mls2, hA2, hB2, hC2, hD2, hE2, hF2, hG2⟩ :=
    derivePhase_ok_inv ticker c2 m2 out2 hd2
  rw [← hm] at hA2 hC2 hD2
  have hmcs : mcs1 = mcs2 := by
    rw [hA1] at hA2
    injection hA2
  have hlc : lc1 = lc2 := by
    rw [← hmcs] at hB2
    rw [hB1] at hB2
    injection hB2
  have hmhs : mhs1 = mhs2 := by
    rw [hC1] at hC2
    injection hC2
  have hmls : mls1 = mls2 := by
    rw [hD1] at hD2
    injection hD2
  refine ⟨?_, ?_, ?_⟩
  · rw [hE1, hE2, hlc]
  · rw [hF1, hF2, hmhs]
  · rw [hG1, hG2, hmls]

/-- Concrete evaluation of C6: two runs against the same provider with
ranges (0,2) and (1,2) — they see different chart frames but the same
metrics frame, and their metric cards agree. -/
theorem C6_metrics_range_independent_witness :
    ∃ out1 out2,
      derivePhase "AAPL" cFrameW mFrameW = .ok out1 ∧
      derivePhase "AAPL" mFrameW mFrameW = .ok out2 ∧
      (out1.latestCloseCard = out2.latestCloseCard ∧
       out1.highCard = out2.highCard ∧
       out1.lowCard = out2.lowCard) := by
  have hd1 := derivePhase_ok_eq "AAPL" cFrameW mFrameW
    [some 1] [some 3] [some 1] [some 2] [some 100]
    [some 10, some 11, none]
    [some 12, some 13, some 12] [some 9, some 8, some 9] 11
    (by decide) (by decide) (by decide) (by decide) (by decide) (by decide)
    (by decide) (by decide) (by decide)
  have hd2 := derivePhase_ok_eq "AAPL" mFrameW mFrameW
    [some 1, some 1, some 1] [some 12, some 13, some 12]
    [some 9, some 8, some 9] [some 10, some 11, none]
    [some 100, some 100, some 100]
    [some 10, some 11, none]
    [some 12, some 13, some 12] [some 9, some 8, some 9] 11
    (by decide) (by decide) (by decide) (by decide) (by decide) (by decide)
    (by decide) (by decide) (by decide)
  exact ⟨_, _, hd1, hd2,
    C6_metrics_range_independent "AAPL" 0 2 1 2 400 dlW
      cFrameW mFrameW mFrameW mFrameW _ _
      (by decide) (by decide) hd1 hd2⟩

/-- Claim C7: whenever the metrics series is non-empty and its bars obey
the provider guarantee low ≤ high (which the code does not check), the
derived metrics satisfy week52High ≥ week52Low. -/
theorem C7_week52_high_ge_low
    (mhsv mlsv : List ℚ)
    (hlen : mhsv.length = mlsv.length) (hne : mhsv ≠ [])
    (hbar : ∀ p ∈ mhsv.zip mlsv, p.2 ≤ p.1) :
    ∃ hi lo, week52HighOf (mhsv.map some) = some hi ∧
      week52LowOf (mlsv.map some) = some lo ∧ lo ≤ hi := by
  have hneL : mlsv ≠ [] := by
    intro h
    subst h
    simp at hlen
    exact hne hlen
  obtain ⟨hi, hhi⟩ := listMax_ne_none mhsv hne
  obtain ⟨lo, hlo⟩ := listMin_ne_none mlsv hneL
  refine ⟨hi, lo, ?_, ?_, ?_⟩
  · rw [week52HighOf, seriesMax, dropNone_map_some]; exact hhi
  · rw [week52LowOf, seriesMin, dropNone_map_some]; exact hlo
  · obtain ⟨j, hj, hlj⟩ := List.getElem_of_mem (listMin_mem mlsv lo hlo)
    have hjh : j < mhsv.length := by rw [hlen]; exact hj
    have hjz : j < (mhsv.zip mlsv).length := by
      rw [List.length_zip]
      exact lt_min hjh hj
    have hzip : (mhsv[j], mlsv[j]) ∈ mhsv.zip mlsv := by
      have hget := @List.getElem_zip _ _ mhsv mlsv j hjz
      rw [← hget]
      exact List.getElem_mem hjz
    calc lo = mlsv[j] := hlj.symm
      _ ≤ mhsv[j] := hbar _ hzip
      _ ≤ hi := le_listMax mhsv hi hhi _ (List.getElem_mem hjh)

/-- Concrete evaluation of C7. -/
theorem C7_week52_high_ge_low_witness :
    ∃ hi lo, week52HighOf ([(3 : ℚ), 5].map some) = some hi ∧
      week52LowOf ([(2 : ℚ), 4].map some) = some lo ∧ lo ≤ hi :=
  C7_week52_high_ge_low [3, 5] [2, 4] (by decide) (by decide) (by decide)

/-- A metrics frame that is non-empty but whose Close column is entirely
missing, so `dropna()` leaves nothing. -/
def mFrameNaN : Frame :=
  { index := [1, 2],
    cols := .flat ["Open", "High", "Low", "Close", "Volume"],
    data :=
      [[some 1, some 2, some 1, none, some 5],
       [some 1, some 2, some 1, none, some 5]] }

/-- A provider whose metrics response has every close missing. -/
def dlNaN : String → ℤ → ℤ → Except String Frame :=
  fun _ a _ => if a = 0 then .ok cFrameW else .ok mFrameNaN

/-- Counterexample to claim C8 as stated: both fetches succeed (the fetch
phase returns `.ok`), yet the derivation fails on the all-missing Close
column and the failure escapes the callback — the request yields an
exception, not an ERROR-style bundle. -/
theorem C8_derivation_failure_uncaught :
    fetchPhase "AAPL" 0 2 400 dlNaN = .ok (cFrameW, mFrameNaN) ∧
    update_dashboard "AAPL" 0 2 400 dlNaN =
      .error "IndexError: single positional indexer is out-of-bounds" :=
  ⟨by decide, by decide⟩

/-- Claim C8 as amended: failures raised during the fetch phase (provider
errors and the zero-row check) are caught at the boundary and converted to
the ERROR-style bundle with the message rendered to the user; failures in
the later derivation phase are outside the handler and propagate. -/
theorem C8_fetch_failures_caught
    (ticker : String) (startD endD today : ℤ)
    (download : String → ℤ → ℤ → Except String Frame) (msg : String)
    (htick : ticker ≠ "")
    (hf : fetchPhase ticker startD endD today download = .error msg) :
    update_dashboard ticker startD endD today download =
      .ok (errorOutputs msg) ∧
    (errorOutputs msg).candlestickFig.title = "Error: " ++ msg ∧
    (errorOutputs msg).priceFig.title = "Error: " ++ msg ∧
    (errorOutputs msg).latestCloseCard.p = msg ∧
    (errorOutputs msg).highCard.p = msg ∧
    (errorOutputs msg).lowCard.p = msg ∧
    (errorOutputs msg).tableData = [] ∧
    (errorOutputs msg).tableCols = [] := by
  refine ⟨?_, rfl, rfl, rfl, rfl, rfl, rfl, rfl⟩
  simp only [update_dashboard, if_neg htick, hf]

/-- A provider that always raises. -/
def dlErr : String → ℤ → ℤ → Except String Frame :=
  fun _ _ _ => .error "connection refused"

/-- Concrete evaluation of the amended C8: a raising provider yields the
ERROR bundle carrying its message. -/
theorem C8_fetch_failures_caught_witness :
    update_dashboard "AAPL" 0 2 400 dlErr =
      .ok (errorOutputs "connection refused") ∧
    (errorOutputs "connection refused").candlestickFig.title =
      "Error: " ++ "connection refused" ∧
    (errorOutputs "connection refused").priceFig.title =
      "Error: " ++ "connection refused" ∧
    (errorOutputs "connection refused").latestCloseCard.p =
      "connection refused" ∧
    (errorOutputs "connection refused").highCard.p = "connection refused" ∧
    (errorOutputs "connection refused").lowCard.p = "connection refused" ∧
    (errorOutputs "connection refused").tableData = [] ∧
    (errorOutputs "connection refused").tableCols = [] :=
  C8_fetch_failures_caught "AAPL" 0 2 400 dlErr "connection refused"
    (by decide) (by decide)

/-- A provider that raises with a message echoing the symbol it was asked
for, to expose what the callback passes to the fetch. -/
def dlEcho : String → ℤ → ℤ → Except String Frame :=
  fun sym _ _ => .error ("symbol:" ++ sym)

/-- Counterexample to claim C9 as stated: a whitespace-only ticker does
not take the empty-ticker path — the provider IS consulted (its message,
echoing the raw untrimmed symbol " ", reaches the bundle) and the result
is not the EMPTY bundle. -/
theorem C9_whitespace_not_empty_path :
    update_dashboard " " 0 10 400 dlEcho = .ok (errorOutputs "symbol: ") ∧
    errorOutputs "symbol: " ≠ emptyOutputs :=
  ⟨by decide, by decide⟩

/-- Claim C9 as amended: only the exactly-empty ticker short-circuits to
the EMPTY bundle; every other ticker — whitespace-only ones included — is
passed untrimmed to the fetch, and the resulting bundle is not the EMPTY
bundle. -/
theorem C9_nonempty_ticker_fetches_untrimmed
    (ticker : String) (startD endD today : ℤ)
    (htick : ticker ≠ "") :
    update_dashboard ticker startD endD today dlEcho =
      .ok (errorOutputs ("symbol:" ++ ticker)) ∧
    errorOutputs ("symbol:" ++ ticker) ≠ emptyOutputs := by
  constructor
  · simp [update_dashboard, if_neg htick, fetchPhase, dlEcho]
  · intro h
    have hcard := congrArg (fun o => o.latestCloseCard.h5) h
    simp [errorOutputs, emptyOutputs, errorCard, emptyCard] at hcard

/-- Concrete evaluation of the amended C9 at the whitespace ticker. -/
theorem C9_nonempty_ticker_fetches_untrimmed_witness :
    update_dashboard " " 20 30 500 dlEcho =
      .ok (errorOutputs ("symbol:" ++ " ")) ∧
    errorOutputs ("symbol:" ++ " ") ≠ emptyOutputs :=
  C9_nonempty_ticker_fetches_untrimmed " " 20 30 500 (by decide)

/-- The C10 metrics frame: one bar, its close missing. -/
def mFrameC10 : Frame :=
  { index := [7],
    cols := .flat ["Open", "High", "Low", "Close", "Volume"],
    data := [[some 2, some 4, some 1, none, some 50]] }

/-- A provider whose metrics response is non-empty with no close values. -/
def dlC10 : String → ℤ → ℤ → Except String Frame :=
  fun _ a _ => if a = 0 then .ok cFrameW else .ok mFrameC10

/-- Claim C10: on an input where both fetches succeed with non-empty
series but every close of the metrics series is missing, the latest-close
derivation indexes into an empty sequence and the uncaught IndexError
escapes the callback — the request returns no bundle. -/
theorem C10_all_missing_closes_crash :
    fetchPhase "MSFT" 0 2 400 dlC10 = .ok (cFrameW, mFrameC10) ∧
    getColE mFrameC10 "Close" = .ok [none] ∧
    update_dashboard "MSFT" 0 2 400 dlC10 =
      .error "IndexError: single positional indexer is out-of-bounds" :=
  ⟨by decide, by decide, by decide⟩

end StockDash
